import Mathlib

/-!
# Verification of the `AudioStreamer` playback core of `gemini-playground`

Shallow embedding of `src/static/js/audio/audio-recorder.js` (class
`AudioStreamer`): PCM16 ingestion and rebuffering (`addPCM16`), the playback
scheduler (`scheduleNextBuffer`), the completion machinery (`complete`,
the per-source `onended` handler, `stop`, `resume`) and the speech-recognition
coordination (`restartRecognition`, the `onerror`/`onend` handlers and the
ingest-triggered start).

Modelling conventions:
* The audio clock (`context.currentTime`) is a rational number passed as the
  `now` argument of each operation; a single JS callback runs atomically
  (single-threaded event loop), so `now` is fixed during one pass.
* Normalized samples are rationals (the JS values `int16 / 32768` are exact
  dyadic rationals).
* A typed-array chunk is modelled by the pair of its `length` property
  (element count: byte count for a `Uint8Array`, 16-bit element count for an
  `Int16Array`) and the byte contents of its backing `buffer`, since
  `addPCM16` reads exactly those two things (`chunk.length` and a `DataView`
  over `chunk.buffer`).
* `AddOut.threw` records whether a JS exception escapes `addPCM16`; it is
  provably always `false`: `new Float32Array(chunk.length / 2)` truncates a
  fractional length via `ToIndex` (no throw), the conversion loop's only
  throwing operation (`getInt16` out of bounds) is inside its `try`/`catch`,
  and an out-of-range typed-array store is a silent no-op.
* `WebAudio` source nodes are numbered by a counter `nextSourceId`; the single
  source whose `onended` handler is armed (non-null and pointed to by
  `endOfQueueAudioSource`) is `endOfQueueAudioSource : Option Nat`.
  Ids are never reused, so "handler nulled out" coincides with "no longer the
  value of `endOfQueueAudioSource`".
* The gain node is modelled by the final value of its gain ramp; the 200 ms
  node-swap timer in `stop()` is not modelled (no claim depends on it).
-/

/-- JS `DataView.getInt16` sign interpretation: a 16-bit value `v < 65536`
read as a signed integer. -/
def toSigned16 (v : Nat) : Int :=
  if v < 32768 then (v : Int) else (v : Int) - 65536

/-- Byte of a buffer at an index (0 when out of range; bounds are always
checked separately by `getInt16LE` before use, mirroring `DataView`). -/
def byteAt : List Nat → Nat → Nat
  | [], _ => 0
  | b :: _, 0 => b
  | _ :: bs, i + 1 => byteAt bs i

/-- JS `dataView.getInt16(off, true)` (little-endian): `none` models the
`RangeError` thrown on an out-of-bounds read (which `addPCM16` catches). -/
def getInt16LE (bytes : List Nat) (off : Nat) : Option Int :=
  if off + 1 < bytes.length then
    some (toSigned16 (byteAt bytes off + 256 * byteAt bytes (off + 1)))
  else none

/-- One converted sample: `float32Array[i] = dataView.getInt16(i*2, true) / 32768`.
The slot keeps its `Float32Array` initial value `0` when the read throws
(the `catch` branch only logs). -/
def pcmSample (bytes : List Nat) (i : Nat) : ℚ :=
  match getInt16LE bytes (2 * i) with
  | some v => (v : ℚ) / 32768
  | none => 0

/-- The conversion loop of `addPCM16`: `chunk.length / 2` samples read at byte
offsets `0, 2, 4, …` of `chunk.buffer`. -/
def pcmConvert (len : Nat) (bytes : List Nat) : List ℚ :=
  (List.range (len / 2)).map (pcmSample bytes)

/-- The `while (this.processingBuffer.length >= this.bufferSize)` loop of
`addPCM16`, fuelled (fuel `buf.length` suffices when `0 < B`; the source never
runs it with `bufferSize = 0`, where the JS loop would not terminate). -/
def drainFramesAux : Nat → Nat → List ℚ → List (List ℚ) × List ℚ
  | 0, _, buf => ([], buf)
  | fuel + 1, B, buf =>
    if 0 < B ∧ B ≤ buf.length then
      let r := drainFramesAux fuel B (buf.drop B)
      (buf.take B :: r.1, r.2)
    else ([], buf)

/-- Splits the accumulation buffer into maximal full frames plus remainder. -/
def drainFrames (B : Nat) (buf : List ℚ) : List (List ℚ) × List ℚ :=
  drainFramesAux buf.length B buf

/-- State of one `AudioStreamer` instance (the mutable fields the claims
depend on). `bufferSize`, `initialBufferTime` and `sampleRate` are set once in
the constructor and never reassigned. -/
structure StreamerState where
  audioQueue : List (List ℚ)
  isPlaying : Bool
  processingBuffer : List ℚ
  scheduledTime : ℚ
  isStreamComplete : Bool
  isRecognitionActive : Bool
  pendingRestarts : Nat
  endOfQueueAudioSource : Option Nat
  nextSourceId : Nat
  gain : ℚ
  bufferSize : Nat
  initialBufferTime : ℚ
  sampleRate : ℚ
deriving DecidableEq, Repr

/-- The constructor state: `bufferSize = 7680`, `initialBufferTime = 0.1`;
`sampleRate = CONFIG.AUDIO.OUTPUT_SAMPLE_RATE` comes from `config.js`, which
is not part of the repository snapshot — modelled from the spec: default
output sample rate 24000 Hz (its value is irrelevant to every claim). -/
def initState : StreamerState where
  audioQueue := []
  isPlaying := false
  processingBuffer := []
  scheduledTime := 0
  isStreamComplete := false
  isRecognitionActive := false
  pendingRestarts := 0
  endOfQueueAudioSource := none
  nextSourceId := 0
  gain := 1
  bufferSize := 7680
  initialBufferTime := 1/10
  sampleRate := 24000

/-- A `source.start(startTime)` call performed by the scheduler: source id,
the frame it plays, its start time and its duration
(`audioBuffer.duration = length / sampleRate`). -/
structure StartEvent where
  sid : Nat
  frame : List ℚ
  startTime : ℚ
  dur : ℚ
deriving DecidableEq, Repr

/-- The constant `SCHEDULE_AHEAD_TIME = 0.2`. -/
def scheduleAheadTime : ℚ := 1/5

/-- Result of the scheduling `while` loop. -/
structure LoopOut where
  queue : List (List ℚ)
  sched : ℚ
  eoq : Option Nat
  nid : Nat
  evs : List StartEvent
deriving Repr

/-- The `while (this.audioQueue.length > 0 && this.scheduledTime <
this.context.currentTime + SCHEDULE_AHEAD_TIME)` loop of
`scheduleNextBuffer`: shift the head frame, create a source; if the queue is
now empty, null out the previous end-of-queue source's `onended` and arm this
source; start it at `max(scheduledTime, currentTime)` and advance
`scheduledTime` to `startTime + duration`. -/
def scheduleLoopAux (now sr : ℚ) : List (List ℚ) → ℚ → Option Nat → Nat → LoopOut
  | [], sched, eoq, nid => ⟨[], sched, eoq, nid, []⟩
  | f :: rest, sched, eoq, nid =>
    if sched < now + scheduleAheadTime then
      let r := scheduleLoopAux now sr rest (max sched now + (f.length : ℚ) / sr)
        (if rest.isEmpty then some nid else eoq) (nid + 1)
      { r with evs := ⟨nid, f, max sched now, (f.length : ℚ) / sr⟩ :: r.evs }
    else ⟨f :: rest, sched, eoq, nid, []⟩

/-- Result of one `scheduleNextBuffer` pass. `completions` counts the
`this.onComplete()` invocations performed synchronously by the pass: the
source of `scheduleNextBuffer` contains none (completion is only ever fired
from `complete()` or from a source's `onended` handler), so both branches
yield `0`. -/
structure PassOut where
  state : StreamerState
  started : List StartEvent
  rearmDelayMs : Option ℚ
  completions : Nat
deriving Repr

/-- Model of `scheduleNextBuffer()`: run the scheduling loop; then, if the frame queue
and the accumulation buffer are both empty, mark playback stopped when the
stream is complete (and do not re-arm); otherwise re-arm via
`setTimeout(..., Math.max(0, (scheduledTime - currentTime) * 1000 - 50))`. -/
def scheduleNextBuffer (now : ℚ) (s : StreamerState) : PassOut :=
  let r := scheduleLoopAux now s.sampleRate s.audioQueue s.scheduledTime
    s.endOfQueueAudioSource s.nextSourceId
  let s1 : StreamerState := { s with
    audioQueue := r.queue
    scheduledTime := r.sched
    endOfQueueAudioSource := r.eoq
    nextSourceId := r.nid }
  if r.queue.isEmpty && s1.processingBuffer.isEmpty then
    ⟨if s1.isStreamComplete then { s1 with isPlaying := false } else s1, r.evs, none, 0⟩
  else
    ⟨s1, r.evs, some (max 0 ((r.sched - now) * 1000 - 50)), 0⟩

/-- Result of an `addPCM16` call.  `threw` records whether a JS exception
escapes the call (none ever does — see `addPCM16`); `engineStarts` counts
`speechRecognizer.start()` invocations; `started` lists the sources started
by the scheduling pass the call may trigger. -/
structure AddOut where
  state : StreamerState
  threw : Bool
  engineStarts : Nat
  started : List StartEvent
deriving Repr

/-- Model of `addPCM16(chunk)` where `len` is the value of `chunk.length` and `bytes`
the content of `chunk.buffer` (a `Uint8Array` chunk of `N` bytes has
`len = N` and `bytes.length = N`; an `Int16Array` chunk — the parameter type
declared by the source's JSDoc — of `N` bytes has `len = N / 2` and
`bytes.length = N`).
Steps, in source order:
1. if recognition is not active, start the engine and set the flag
   (`speechRecognizer.start()` is modelled as succeeding; on failure the
   source resets the flag and continues identically for our purposes);
2. `new Float32Array(chunk.length / 2)` — for odd `chunk.length` the
   fractional length is truncated by `ToIndex`, so the array has
   `⌊len / 2⌋` slots and **no exception is thrown**;
3. the loop `for (i = 0; i < chunk.length / 2; i++)` converts the
   `⌊len / 2⌋` samples; for odd `len` it runs one extra iteration whose
   out-of-range `getInt16` read is caught by the `try`/`catch` (leaving
   nothing to store) and whose out-of-range typed-array store would be a
   silent no-op anyway, so the trailing odd byte is dropped silently and the
   array content is exactly `pcmConvert len bytes` (`⌊len / 2⌋` entries,
   Nat division);
4. append to `processingBuffer`, slice off all full `bufferSize` frames into
   `audioQueue`;
5. if not playing: set `isPlaying`, set `scheduledTime = now +
   initialBufferTime` and run a `scheduleNextBuffer` pass. -/
def addPCM16 (len : Nat) (bytes : List Nat) (now : ℚ) (s : StreamerState) : AddOut :=
  let starts : Nat := if s.isRecognitionActive then 0 else 1
  let s : StreamerState :=
    if s.isRecognitionActive then s else { s with isRecognitionActive := true }
  let buf := s.processingBuffer ++ pcmConvert len bytes
  let fr := drainFrames s.bufferSize buf
  let s : StreamerState := { s with audioQueue := s.audioQueue ++ fr.1, processingBuffer := fr.2 }
  if s.isPlaying then ⟨s, false, starts, []⟩
  else
    let s : StreamerState :=
      { s with isPlaying := true, scheduledTime := now + s.initialBufferTime }
    let p := scheduleNextBuffer now s
    ⟨p.state, false, starts, p.started⟩

/-- Result of a `complete()` call or an `onended` firing: the new state, the
number of synchronous `this.onComplete()` invocations, and any sources started
by a triggered scheduling pass. -/
structure CallOut where
  state : StreamerState
  completions : Nat
  started : List StartEvent
deriving Repr

/-- Model of `complete()`: set `isStreamComplete`; if the accumulation buffer is
non-empty, push it as a final (short) frame and, when playing, run a
scheduling pass; otherwise invoke `this.onComplete()` immediately. -/
def completeStream (now : ℚ) (s : StreamerState) : CallOut :=
  let s : StreamerState := { s with isStreamComplete := true }
  if s.processingBuffer.isEmpty then ⟨s, 1, []⟩
  else
    let s : StreamerState :=
      { s with audioQueue := s.audioQueue ++ [s.processingBuffer], processingBuffer := [] }
    if s.isPlaying then
      let p := scheduleNextBuffer now s
      ⟨p.state, p.completions, p.started⟩
    else ⟨s, 0, []⟩

/-- The `onended` handler of the armed end-of-queue source `k`: fires
`this.onComplete()` iff the frame queue is empty and
`endOfQueueAudioSource` still points at `k` (a disarmed handler was nulled
out and never runs; ids are never reused). -/
def sourceEnded (k : Nat) (s : StreamerState) : CallOut :=
  if s.audioQueue.isEmpty && s.endOfQueueAudioSource == some k then
    ⟨{ s with endOfQueueAudioSource := none }, 1, []⟩
  else ⟨s, 0, []⟩

/-- Model of `stop()`: clear both buffers, mark stopped and stream-complete, reset
`scheduledTime` to `now`, ramp the gain to 0, stop recognition if active.
It contains no `onComplete()` call and (every risky engine call being wrapped
in `try`/`catch`) never throws, hence it is modelled as a total function on
states. The 200 ms fresh-gain-node swap timer is not modelled. -/
def stopStream (now : ℚ) (s : StreamerState) : StreamerState :=
  { s with
    isPlaying := false
    isStreamComplete := true
    audioQueue := []
    processingBuffer := []
    scheduledTime := now
    gain := 0
    isRecognitionActive := false }

/-- Model of `resume()`: (after resuming a suspended context, not modelled) clear
`isStreamComplete`, reset `scheduledTime = now + initialBufferTime`, restore
gain to 1. -/
def resumeStream (now : ℚ) (s : StreamerState) : StreamerState :=
  { s with isStreamComplete := false, scheduledTime := now + s.initialBufferTime, gain := 1 }

/-- Model of `restartRecognition()`: a no-op while `isRecognitionActive`; otherwise
schedules one 100 ms restart timer (`setTimeout`), whose later firing is the
separate `restartTimerFire`. -/
def restartRecognition (s : StreamerState) : StreamerState :=
  if s.isRecognitionActive then s else { s with pendingRestarts := s.pendingRestarts + 1 }

/-- A scheduled restart timer firing: re-checks the activity flag at fire
time and only then calls `speechRecognizer.start()` (counted) and sets the
flag. Returns the number of engine starts. -/
def restartTimerFire (s : StreamerState) : StreamerState × Nat :=
  if s.pendingRestarts = 0 then (s, 0)
  else
    let s : StreamerState := { s with pendingRestarts := s.pendingRestarts - 1 }
    if s.isRecognitionActive then (s, 0) else ({ s with isRecognitionActive := true }, 1)

/-- The `onerror` handler for `no-speech`: calls `restartRecognition()` first
(a no-op if the flag is still set) and then clears `isRecognitionActive`. -/
def noSpeechError (s : StreamerState) : StreamerState :=
  { restartRecognition s with isRecognitionActive := false }

/-- The `onend` handler: clears `isRecognitionActive`, then restarts
recognition if still playing and the stream is not complete. -/
def engineEndHandler (s : StreamerState) : StreamerState :=
  let s : StreamerState := { s with isRecognitionActive := false }
  if s.isPlaying && !s.isStreamComplete then restartRecognition s else s

/-- One event of the single-threaded browser event loop acting on the
streamer: an external call, a timer firing, or an engine notification. -/
inductive Ev where
  | ingest (len : Nat) (bytes : List Nat) (now : ℚ)
  | completeEv (now : ℚ)
  | passEv (now : ℚ)
  | ended (k : Nat)
  | stopEv (now : ℚ)
  | resumeEv (now : ℚ)
  | restartCall
  | timerFire
  | noSpeech
  | engineEnded
deriving DecidableEq, Repr

/-- Observable output of one event step. -/
structure StepOut where
  state : StreamerState
  completions : Nat
  engineStarts : Nat
  started : List StartEvent
deriving Repr

/-- Small-step semantics: dispatch one event to the corresponding handler. -/
def stepEv (e : Ev) (s : StreamerState) : StepOut :=
  match e with
  | .ingest len bytes now =>
    let a := addPCM16 len bytes now s
    ⟨a.state, 0, a.engineStarts, a.started⟩
  | .completeEv now =>
    let c := completeStream now s
    ⟨c.state, c.completions, 0, c.started⟩
  | .passEv now =>
    let p := scheduleNextBuffer now s
    ⟨p.state, p.completions, 0, p.started⟩
  | .ended k =>
    let c := sourceEnded k s
    ⟨c.state, c.completions, 0, []⟩
  | .stopEv now => ⟨stopStream now s, 0, 0, []⟩
  | .resumeEv now => ⟨resumeStream now s, 0, 0, []⟩
  | .restartCall => ⟨restartRecognition s, 0, 0, []⟩
  | .timerFire =>
    let r := restartTimerFire s
    ⟨r.1, 0, r.2, []⟩
  | .noSpeech => ⟨noSpeechError s, 0, 0, []⟩
  | .engineEnded => ⟨engineEndHandler s, 0, 0, []⟩

/-- A whole execution: fold the events, summing `onComplete` invocations and
engine starts and concatenating the started sources in order. -/
def runTrace : List Ev → StreamerState → StepOut
  | [], s => ⟨s, 0, 0, []⟩
  | e :: t, s =>
    let o := stepEv e s
    let r := runTrace t o.state
    ⟨r.state, o.completions + r.completions, o.engineStarts + r.engineStarts,
      o.started ++ r.started⟩

/-- Events legal for the ordering claim: everything except `stop()` (the
only truncation primitive). Odd-length ingests are included: they drop the
trailing byte and contribute their `⌊len / 2⌋` converted samples. -/
def evOK : Ev → Bool
  | .stopEv _ => false
  | _ => true

/-- The samples an event contributes to the stream. -/
def evSamples : Ev → List ℚ
  | .ingest len bytes _ => pcmConvert len bytes
  | _ => []

/-- Predicate `traceOK t`: every event of `t` is legal for the ordering claim. -/
def traceOK (t : List Ev) : Bool := t.all evOK

/-- All samples ingested along a trace, in arrival order. -/
def traceSamples (t : List Ev) : List ℚ := (t.map evSamples).flatten

/-- The chain property of one scheduling pass: each started source was
dequeued under the look-ahead guard, starts at `max(scheduledTime, now)`,
has duration `frame.length / sampleRate`, and advances `scheduledTime` to
its start time plus its duration; `final` is the value of `scheduledTime`
after the last start. -/
def startChainOK (now sr : ℚ) : ℚ → List StartEvent → ℚ → Prop
  | sched, [], final => final = sched
  | sched, e :: es, final =>
    sched < now + scheduleAheadTime ∧ e.startTime = max sched now ∧
      e.dur = (e.frame.length : ℚ) / sr ∧ startChainOK now sr (e.startTime + e.dur) es final

/-- The concrete input refuting C5: a playing session, stream marked
complete, both queues empty. -/
def c5State : StreamerState :=
  { initState with isPlaying := true, isStreamComplete := true }

/-- The all-zero 15360-byte chunk used in the completion counterexample. -/
def c1Bytes : List Nat := List.replicate 15360 0

/-- The trace refuting exactly-once completion: one frame-aligned ingest
(15360 bytes as a `Uint8Array`, i.e. 7680 samples — exactly one full frame,
empty remainder), then `complete()`, then the scheduled source's `onended`
firing. -/
def c1Trace : List Ev := [Ev.ingest 15360 c1Bytes 0, Ev.completeEv 1, Ev.ended 0]

/-- The trace refuting the no-completion-after-resume reading of C10: a
frame-aligned ingest, `complete()` (first fire, source still armed), then
`resume()`, then the armed source's `onended` (second fire — with no new
`complete()` after the `resume()`). -/
def c10Trace : List Ev :=
  [Ev.ingest 15360 c1Bytes 0, Ev.completeEv 1, Ev.resumeEv 2, Ev.ended 0]

/-! ## Helper lemmas -/

theorem drainFramesAux_flatten (fuel B : Nat) :
    ∀ buf : List ℚ,
      (drainFramesAux fuel B buf).1.flatten ++ (drainFramesAux fuel B buf).2 = buf := by
  induction fuel with
  | zero => intro buf; simp [drainFramesAux]
  | succ n ih =>
    intro buf
    simp only [drainFramesAux]
    split
    · rw [List.flatten_cons, List.append_assoc, ih, List.take_append_drop]
    · simp

theorem drainFramesAux_count (B : Nat) (hB : 0 < B) :
    ∀ (fuel : Nat) (buf : List ℚ), buf.length ≤ fuel →
      (drainFramesAux fuel B buf).1.length = buf.length / B ∧
      (drainFramesAux fuel B buf).2.length = buf.length % B ∧
      ∀ f ∈ (drainFramesAux fuel B buf).1, f.length = B := by
  intro fuel
  induction fuel with
  | zero =>
    intro buf hlen
    have hb : buf = [] := List.length_eq_zero.mp (Nat.le_zero.mp hlen)
    subst hb
    simp [drainFramesAux]
  | succ n ih =>
    intro buf hlen
    by_cases h : B ≤ buf.length
    · have hlt : (buf.drop B).length ≤ n := by
        simp only [List.length_drop]; omega
      obtain ⟨ih1, ih2, ih3⟩ := ih (buf.drop B) hlt
      simp only [drainFramesAux, if_pos (And.intro hB h)]
      refine ⟨?_, ?_, ?_⟩
      · simp only [List.length_cons, ih1, List.length_drop]
        rw [Nat.div_eq_sub_div hB h]
      · rw [ih2, List.length_drop, Nat.mod_eq_sub_mod h]
      · intro f hf
        rcases List.mem_cons.mp hf with hf | hf
        · subst hf
          simp only [List.length_take]
          omega
        · exact ih3 f hf
    · have hlt : buf.length < B := by omega
      have hcond : ¬ (0 < B ∧ B ≤ buf.length) := by omega
      simp only [drainFramesAux, if_neg hcond]
      exact ⟨(Nat.div_eq_of_lt hlt).symm, (Nat.mod_eq_of_lt hlt).symm, by simp⟩

theorem drainFrames_flatten (B : Nat) (buf : List ℚ) :
    (drainFrames B buf).1.flatten ++ (drainFrames B buf).2 = buf :=
  drainFramesAux_flatten _ _ _

theorem drainFrames_count (B : Nat) (hB : 0 < B) (buf : List ℚ) :
    (drainFrames B buf).1.length = buf.length / B ∧
    (drainFrames B buf).2.length = buf.length % B ∧
    ∀ f ∈ (drainFrames B buf).1, f.length = B :=
  drainFramesAux_count B hB buf.length buf (Nat.le_refl _)

theorem pcmConvert_length (len : Nat) (bytes : List Nat) :
    (pcmConvert len bytes).length = len / 2 := by
  simp [pcmConvert]

theorem scheduleLoopAux_spec (now sr : ℚ) :
    ∀ (q : List (List ℚ)) (sched : ℚ) (eoq : Option Nat) (nid : Nat),
      (scheduleLoopAux now sr q sched eoq nid).evs.map StartEvent.frame
          = q.take (scheduleLoopAux now sr q sched eoq nid).evs.length ∧
      (scheduleLoopAux now sr q sched eoq nid).queue
          = q.drop (scheduleLoopAux now sr q sched eoq nid).evs.length ∧
      startChainOK now sr sched (scheduleLoopAux now sr q sched eoq nid).evs
          (scheduleLoopAux now sr q sched eoq nid).sched ∧
      ((scheduleLoopAux now sr q sched eoq nid).queue = [] ∨
        ¬ (scheduleLoopAux now sr q sched eoq nid).sched < now + scheduleAheadTime) := by
  intro q
  induction q with
  | nil =>
    intro sched eoq nid
    simp [scheduleLoopAux, startChainOK]
  | cons f rest ih =>
    intro sched eoq nid
    simp only [scheduleLoopAux]
    split
    · rename_i hg
      obtain ⟨ih1, ih2, ih3, ih4⟩ :=
        ih (max sched now + (f.length : ℚ) / sr) (if rest.isEmpty then some nid else eoq) (nid + 1)
      refine ⟨?_, ?_, ?_, ?_⟩
      · simp only [List.map_cons, List.length_cons, List.take_succ_cons, ih1]
      · simp only [List.length_cons, List.drop_succ_cons, ih2]
      · exact ⟨hg, rfl, rfl, ih3⟩
      · exact ih4
    · rename_i hg
      simp [startChainOK, hg]

theorem scheduleNextBuffer_completions (now : ℚ) (s : StreamerState) :
    (scheduleNextBuffer now s).completions = 0 := by
  unfold scheduleNextBuffer
  dsimp only
  split <;> rfl

theorem scheduleNextBuffer_buffer (now : ℚ) (s : StreamerState) :
    (scheduleNextBuffer now s).state.processingBuffer = s.processingBuffer := by
  unfold scheduleNextBuffer
  dsimp only
  split
  · split <;> rfl
  · rfl

theorem scheduleNextBuffer_isStreamComplete (now : ℚ) (s : StreamerState) :
    (scheduleNextBuffer now s).state.isStreamComplete = s.isStreamComplete := by
  unfold scheduleNextBuffer
  dsimp only
  split
  · split <;> rfl
  · rfl

theorem scheduleNextBuffer_bufferSize (now : ℚ) (s : StreamerState) :
    (scheduleNextBuffer now s).state.bufferSize = s.bufferSize := by
  unfold scheduleNextBuffer
  dsimp only
  split
  · split <;> rfl
  · rfl

theorem scheduleNextBuffer_initialBufferTime (now : ℚ) (s : StreamerState) :
    (scheduleNextBuffer now s).state.initialBufferTime = s.initialBufferTime := by
  unfold scheduleNextBuffer
  dsimp only
  split
  · split <;> rfl
  · rfl

theorem scheduleNextBuffer_isRecognitionActive (now : ℚ) (s : StreamerState) :
    (scheduleNextBuffer now s).state.isRecognitionActive = s.isRecognitionActive := by
  unfold scheduleNextBuffer
  dsimp only
  split
  · split <;> rfl
  · rfl

theorem scheduleNextBuffer_isPlaying_of_not_complete (now : ℚ) (s : StreamerState)
    (h : s.isStreamComplete = false) :
    (scheduleNextBuffer now s).state.isPlaying = s.isPlaying := by
  unfold scheduleNextBuffer
  dsimp only
  split
  · simp [h]
  · rfl

theorem scheduleNextBuffer_frames (now : ℚ) (s : StreamerState) :
    (scheduleNextBuffer now s).started.map StartEvent.frame
        = s.audioQueue.take (scheduleNextBuffer now s).started.length ∧
    (scheduleNextBuffer now s).state.audioQueue
        = s.audioQueue.drop (scheduleNextBuffer now s).started.length := by
  obtain ⟨h1, h2, _, _⟩ := scheduleLoopAux_spec now s.sampleRate s.audioQueue s.scheduledTime
    s.endOfQueueAudioSource s.nextSourceId
  unfold scheduleNextBuffer
  dsimp only
  split
  · split <;> exact ⟨h1, h2⟩
  · exact ⟨h1, h2⟩

theorem scheduleNextBuffer_conserve (now : ℚ) (s : StreamerState) :
    ((scheduleNextBuffer now s).started.map StartEvent.frame).flatten
        ++ (scheduleNextBuffer now s).state.audioQueue.flatten = s.audioQueue.flatten := by
  obtain ⟨h1, h2⟩ := scheduleNextBuffer_frames now s
  rw [h1, h2, ← List.flatten_append, List.take_append_drop]

theorem scheduleNextBuffer_counts (now : ℚ) (s : StreamerState) :
    (scheduleNextBuffer now s).started.length
        + (scheduleNextBuffer now s).state.audioQueue.length = s.audioQueue.length := by
  obtain ⟨h1, h2⟩ := scheduleNextBuffer_frames now s
  have hle : (scheduleNextBuffer now s).started.length ≤ s.audioQueue.length := by
    have hl := congrArg List.length h1
    simp only [List.length_map, List.length_take] at hl
    omega
  have hq := congrArg List.length h2
  simp only [List.length_drop] at hq
  omega

theorem scheduleNextBuffer_queue_mem (now : ℚ) (s : StreamerState) (f : List ℚ)
    (hf : f ∈ (scheduleNextBuffer now s).state.audioQueue) : f ∈ s.audioQueue := by
  obtain ⟨_, h2⟩ := scheduleNextBuffer_frames now s
  rw [h2] at hf
  exact List.mem_of_mem_drop hf

theorem addPCM16_spec (len : Nat) (bytes : List Nat) (now : ℚ) (s : StreamerState)
    (hB : 0 < s.bufferSize) :
    (addPCM16 len bytes now s).threw = false ∧
    (addPCM16 len bytes now s).started.length
        + (addPCM16 len bytes now s).state.audioQueue.length
        = s.audioQueue.length + (s.processingBuffer.length + len / 2) / s.bufferSize ∧
    (addPCM16 len bytes now s).state.processingBuffer.length
        = (s.processingBuffer.length + len / 2) % s.bufferSize ∧
    (∀ f ∈ (addPCM16 len bytes now s).state.audioQueue,
        f ∈ s.audioQueue ∨ f.length = s.bufferSize) ∧
    (s.isPlaying = true → (addPCM16 len bytes now s).started = [] ∧
        (addPCM16 len bytes now s).state.audioQueue
          = s.audioQueue ++ (drainFrames s.bufferSize (s.processingBuffer ++ pcmConvert len bytes)).1 ∧
        (addPCM16 len bytes now s).state.processingBuffer
          = (drainFrames s.bufferSize (s.processingBuffer ++ pcmConvert len bytes)).2) ∧
    (addPCM16 len bytes now s).state.bufferSize = s.bufferSize ∧
    (addPCM16 len bytes now s).state.isStreamComplete = s.isStreamComplete ∧
    (s.isStreamComplete = false → (addPCM16 len bytes now s).state.isPlaying = true) ∧
    (addPCM16 len bytes now s).state.isRecognitionActive = true ∧
    (addPCM16 len bytes now s).state.initialBufferTime = s.initialBufferTime := by
  have hbuflen : (s.processingBuffer ++ pcmConvert len bytes).length
      = s.processingBuffer.length + len / 2 := by
    simp [pcmConvert_length]
  obtain ⟨d1, d2, d3⟩ := drainFrames_count s.bufferSize hB (s.processingBuffer ++ pcmConvert len bytes)
  by_cases hact : s.isRecognitionActive <;>
    by_cases hplay : s.isPlaying <;>
      simp only [addPCM16, hact, hplay, if_true, if_false, Bool.false_eq_true,
        ite_true, ite_false, ne_eq, not_true_eq_false, not_false_eq_true] <;>
  first
  | (refine ⟨trivial, ?_, ?_, ?_, by simp, trivial, trivial, by simp, trivial, trivial⟩
     · simp only [List.length_nil, List.length_append, d1, hbuflen, Nat.zero_add]
     · rw [d2, hbuflen]
     · intro f hf
       rcases List.mem_append.mp hf with h | h
       · exact Or.inl h
       · exact Or.inr (d3 f h))
  | (refine ⟨trivial, ?_, ?_, ?_, by simp, ?_, ?_, ?_, ?_, ?_⟩
     · rw [scheduleNextBuffer_counts]
       simp only [List.length_append, d1, hbuflen]
     · rw [scheduleNextBuffer_buffer]
       dsimp only
       rw [d2, hbuflen]
     · intro f hf
       have hmem := scheduleNextBuffer_queue_mem _ _ _ hf
       dsimp only at hmem
       rcases List.mem_append.mp hmem with h | h
       · exact Or.inl h
       · exact Or.inr (d3 f h)
     · rw [scheduleNextBuffer_bufferSize]
     · rw [scheduleNextBuffer_isStreamComplete]
     · intro hsc
       rw [scheduleNextBuffer_isPlaying_of_not_complete]
       exact hsc
     · rw [scheduleNextBuffer_isRecognitionActive]
     · rw [scheduleNextBuffer_initialBufferTime])

theorem addPCM16_conserve (len : Nat) (bytes : List Nat) (now : ℚ) (s : StreamerState) :
    ((addPCM16 len bytes now s).started.map StartEvent.frame).flatten
        ++ (addPCM16 len bytes now s).state.audioQueue.flatten
        ++ (addPCM16 len bytes now s).state.processingBuffer
      = s.audioQueue.flatten ++ s.processingBuffer ++ pcmConvert len bytes := by
  have hd := drainFrames_flatten s.bufferSize (s.processingBuffer ++ pcmConvert len bytes)
  by_cases hact : s.isRecognitionActive <;>
    by_cases hplay : s.isPlaying <;>
      simp only [addPCM16, hact, hplay, if_true, if_false, Bool.false_eq_true,
        ite_true, ite_false, ne_eq, not_true_eq_false, not_false_eq_true] <;>
  first
  | (rw [List.map_nil, List.flatten_nil, List.nil_append]
     conv_lhs => rw [List.flatten_append, List.append_assoc, hd]
     rw [List.append_assoc])
  | (rw [scheduleNextBuffer_buffer]
     try dsimp only
     rw [scheduleNextBuffer_conserve]
     try dsimp only
     conv_lhs => rw [List.flatten_append, List.append_assoc, hd]
     rw [List.append_assoc])

theorem completeStream_conserve (now : ℚ) (s : StreamerState) :
    ((completeStream now s).started.map StartEvent.frame).flatten
        ++ (completeStream now s).state.audioQueue.flatten
        ++ (completeStream now s).state.processingBuffer
      = s.audioQueue.flatten ++ s.processingBuffer := by
  unfold completeStream
  dsimp only
  split
  · rename_i h
    simp [List.isEmpty_iff.mp h]
  · split
    · rw [scheduleNextBuffer_buffer]
      try dsimp only
      rw [List.append_nil, scheduleNextBuffer_conserve]
      simp
    · simp

theorem stepEv_conserve (e : Ev) (s : StreamerState) (hok : evOK e = true) :
    ((stepEv e s).started.map StartEvent.frame).flatten
        ++ (stepEv e s).state.audioQueue.flatten
        ++ (stepEv e s).state.processingBuffer
      = s.audioQueue.flatten ++ s.processingBuffer ++ evSamples e := by
  cases e with
  | ingest len bytes now =>
    simpa [stepEv, evSamples] using addPCM16_conserve len bytes now s
  | completeEv now =>
    simpa [stepEv, evSamples] using completeStream_conserve now s
  | passEv now =>
    have h := scheduleNextBuffer_conserve now s
    simp only [stepEv, evSamples]
    rw [List.append_nil, h, scheduleNextBuffer_buffer]
  | ended k =>
    simp only [stepEv, sourceEnded, evSamples]
    split <;> simp
  | stopEv now => simp [evOK] at hok
  | resumeEv now => simp [stepEv, resumeStream, evSamples]
  | restartCall =>
    simp only [stepEv, restartRecognition, evSamples]
    split <;> simp
  | timerFire =>
    simp only [stepEv, restartTimerFire, evSamples]
    split
    · simp
    · split <;> simp
  | noSpeech =>
    simp only [stepEv, noSpeechError, restartRecognition, evSamples]
    split <;> simp
  | engineEnded =>
    simp only [stepEv, engineEndHandler, restartRecognition, evSamples]
    split
    · split <;> simp
    · simp

theorem runTrace_conserve (t : List Ev) :
    ∀ s : StreamerState, traceOK t = true →
      ((runTrace t s).started.map StartEvent.frame).flatten
          ++ (runTrace t s).state.audioQueue.flatten
          ++ (runTrace t s).state.processingBuffer
        = s.audioQueue.flatten ++ s.processingBuffer ++ traceSamples t := by
  induction t with
  | nil => intro s _; simp [runTrace, traceSamples]
  | cons e t ih =>
    intro s hok
    have hok' : evOK e = true ∧ traceOK t = true := by
      simpa [traceOK] using hok
    have h1 := stepEv_conserve e s hok'.1
    have h2 := ih (stepEv e s).state hok'.2
    have h1x := congrArg (fun l => l ++ traceSamples t) h1
    simp only [runTrace, traceSamples, List.map_cons, List.flatten_cons, List.map_append,
      List.flatten_append, List.append_assoc] at h1x h2 ⊢
    rw [h2, h1x]

theorem byteAt_replicate_zero (n : Nat) : ∀ i, byteAt (List.replicate n 0) i = 0 := by
  induction n with
  | zero => intro i; simp [List.replicate, byteAt]
  | succ m ih =>
    intro i
    cases i with
    | zero => simp [List.replicate, byteAt]
    | succ j => simpa [List.replicate, byteAt] using ih j

theorem pcmSample_zero (bytes : List Nat) (hz : ∀ i, byteAt bytes i = 0) (i : Nat) :
    pcmSample bytes i = 0 := by
  unfold pcmSample getInt16LE
  by_cases h : 2 * i + 1 < bytes.length
  · rw [if_pos h, hz, hz]
    norm_num [toSigned16]
  · rw [if_neg h]

theorem pcmConvert_c1 : pcmConvert 15360 c1Bytes = List.replicate 7680 (0 : ℚ) := by
  unfold pcmConvert c1Bytes
  rw [List.map_congr_left (fun i _ => pcmSample_zero _ (byteAt_replicate_zero 15360) i),
    List.map_const', List.length_range]

theorem drainFramesAux_nil (fuel B : Nat) : drainFramesAux fuel B [] = ([], []) := by
  cases fuel with
  | zero => rfl
  | succ n =>
    rw [drainFramesAux, if_neg]
    rintro ⟨h1, h2⟩
    simp at h2
    omega

theorem drainFrames_exact (B : Nat) (hB : 0 < B) (buf : List ℚ) (h : buf.length = B) :
    drainFrames B buf = ([buf], []) := by
  unfold drainFrames
  rw [h]
  cases B with
  | zero => omega
  | succ n =>
    rw [drainFramesAux, if_pos (by omega)]
    rw [← h, List.take_length, List.drop_length, drainFramesAux_nil]

theorem completeStream_empty (now : ℚ) (s : StreamerState) (h : s.processingBuffer = []) :
    completeStream now s = ⟨{ s with isStreamComplete := true }, 1, []⟩ := by
  unfold completeStream
  rw [if_pos (by simp [h])]

theorem sourceEnded_fire (k : Nat) (s : StreamerState) (hq : s.audioQueue = [])
    (he : s.endOfQueueAudioSource = some k) :
    (sourceEnded k s).completions = 1 := by
  unfold sourceEnded
  rw [if_pos (by simp [hq, he])]

theorem c1_ingest_state :
    (addPCM16 15360 c1Bytes 0 initState).state.audioQueue = [] ∧
    (addPCM16 15360 c1Bytes 0 initState).state.processingBuffer = [] ∧
    (addPCM16 15360 c1Bytes 0 initState).state.endOfQueueAudioSource = some 0 := by
  have hd : drainFrames initState.bufferSize (pcmConvert 15360 c1Bytes)
      = ([List.replicate 7680 0], []) := by
    rw [pcmConvert_c1]
    exact drainFrames_exact _ (by decide) _ (by rw [List.length_replicate]; rfl)
  unfold addPCM16
  dsimp only
  simp only [eq_false (by decide : ¬ initState.isRecognitionActive = true),
    eq_false (by decide : ¬ initState.isPlaying = true),
    if_false,
    show initState.processingBuffer = ([] : List ℚ) from rfl,
    show initState.audioQueue = ([] : List (List ℚ)) from rfl,
    List.nil_append, hd]
  simp only [scheduleNextBuffer, scheduleLoopAux,
    eq_true (show (0:ℚ) + initState.initialBufferTime < 0 + scheduleAheadTime from by
      rw [show initState.initialBufferTime = (1:ℚ)/10 from rfl]
      norm_num [scheduleAheadTime]),
    if_true, List.isEmpty_nil, Bool.and_self,
    eq_false (by decide : ¬ initState.isStreamComplete = true), if_false,
    show initState.nextSourceId = 0 from rfl]
  exact ⟨trivial, trivial, trivial⟩

/-! ## Claim theorems -/

/-- C9: calling `stop()` when already stopped throws no error (modelled: it is
a total function) and fires no completion callback; a second `stop()` leaves
the frame queue, the accumulation buffer, `isPlaying` and `isStreamComplete`
exactly as the first left them, from any state including Idle. -/
theorem C9_stop_idempotent (s : StreamerState) (now1 now2 : ℚ) :
    (stepEv (Ev.stopEv now1) s).completions = 0 ∧
    (stepEv (Ev.stopEv now2) (stopStream now1 s)).completions = 0 ∧
    (stopStream now2 (stopStream now1 s)).audioQueue = (stopStream now1 s).audioQueue ∧
    (stopStream now2 (stopStream now1 s)).processingBuffer
        = (stopStream now1 s).processingBuffer ∧
    (stopStream now2 (stopStream now1 s)).isPlaying = (stopStream now1 s).isPlaying ∧
    (stopStream now2 (stopStream now1 s)).isStreamComplete
        = (stopStream now1 s).isStreamComplete := by
  simp [stepEv, stopStream]

/-- C10 counterexample: the claim's assertion that the session will not fire
completion again until `complete()` is called anew is false. After a frame-aligned
ingest and a `complete()` (which fires once, the scheduled source still
playing and armed), a `resume()` resets `isStreamComplete` to `false` — yet
when the armed source ends, its `onended` handler (which never checks
`isStreamComplete`) fires the completion callback again, with no new
`complete()` in between: 2 total fires on `c10Trace`. -/
theorem C10_counterexample :
    (runTrace [Ev.ingest 15360 c1Bytes 0, Ev.completeEv 1, Ev.resumeEv 2]
        initState).state.isStreamComplete = false ∧
    (runTrace [Ev.ingest 15360 c1Bytes 0, Ev.completeEv 1, Ev.resumeEv 2]
        initState).completions = 1 ∧
    (runTrace c10Trace initState).completions = 2 := by
  obtain ⟨hq, hb, he⟩ := c1_ingest_state
  refine ⟨?_, ?_, ?_⟩
  · simp only [runTrace, stepEv]
    rw [completeStream_empty 1 _ hb]
    simp [resumeStream]
  · simp only [runTrace, stepEv]
    rw [completeStream_empty 1 _ hb]
    rfl
  · simp only [c10Trace, runTrace, stepEv]
    rw [completeStream_empty 1 _ hb]
    dsimp only
    rw [sourceEnded_fire 0 _ (by simp [resumeStream, hq]) (by simp [resumeStream, he])]

/-- C10 amended: `resume()` always resets `isStreamComplete` to `false` (in
addition to resetting `scheduledTime` to `now + initialBufferTime` and
restoring gain to 1), so the `isStreamComplete`-gated completion logic — the
scheduler's Stopped transition, which also fires nothing itself — is
disabled until `complete()` is called anew; however the end-of-playback
notification of an already-armed final source is not gated on
`isStreamComplete` and still fires the completion callback after the
`resume()`, without a new `complete()`. -/
theorem C10_amended (s : StreamerState) (now now2 : ℚ) :
    (resumeStream now s).isStreamComplete = false ∧
    (resumeStream now s).scheduledTime = now + s.initialBufferTime ∧
    (resumeStream now s).gain = 1 ∧
    (scheduleNextBuffer now2 (resumeStream now s)).state.isPlaying
        = (resumeStream now s).isPlaying ∧
    (scheduleNextBuffer now2 (resumeStream now s)).completions = 0 ∧
    (∀ k, s.audioQueue = [] → s.endOfQueueAudioSource = some k →
      (sourceEnded k (resumeStream now s)).completions = 1) := by
  refine ⟨rfl, rfl, rfl, ?_, scheduleNextBuffer_completions _ _, ?_⟩
  · exact scheduleNextBuffer_isPlaying_of_not_complete _ _ rfl
  · intro k hk he2
    exact sourceEnded_fire k _ hk he2

/-- C10 witness: a concrete idle state with source 3 armed; `resume()` clears
`isStreamComplete`, and the armed source's end still fires completion. -/
theorem C10_witness :
    (({ initState with endOfQueueAudioSource := some 3 } : StreamerState).audioQueue = [] ∧
      ({ initState with endOfQueueAudioSource := some 3 } : StreamerState).endOfQueueAudioSource
        = some 3) ∧
    (resumeStream 1 { initState with endOfQueueAudioSource := some 3 }).isStreamComplete
        = false ∧
    (sourceEnded 3
        (resumeStream 1 { initState with endOfQueueAudioSource := some 3 })).completions = 1 := by
  refine ⟨⟨rfl, rfl⟩, (C10_amended { initState with endOfQueueAudioSource := some 3 } 1 0).1, ?_⟩
  exact (C10_amended { initState with endOfQueueAudioSource := some 3 } 1 0).2.2.2.2.2 3 rfl rfl

/-- C8: while `isRecognitionActive` is true, `restartRecognition()` is a
no-op (it does not even schedule a restart timer), and no event whatsoever —
ingest-triggered start, restart call, restart-timer firing, engine
notifications — invokes the engine's `start()`: the recognizer is never
started while already active. -/
theorem C8_restart_suppression (s : StreamerState) (e : Ev)
    (h : s.isRecognitionActive = true) :
    restartRecognition s = s ∧ (stepEv e s).engineStarts = 0 := by
  refine ⟨by simp [restartRecognition, h], ?_⟩
  cases e <;>
    simp only [stepEv, addPCM16, restartTimerFire, h, if_true, ite_true] <;>
    first
    | rfl
    | (split <;> rfl)

/-- C8 witness: in a concretely active state, `restartRecognition` changes
nothing and a restart call starts no engine. -/
theorem C8_witness :
    ({ initState with isRecognitionActive := true } : StreamerState).isRecognitionActive = true ∧
    restartRecognition { initState with isRecognitionActive := true }
        = { initState with isRecognitionActive := true } ∧
    (stepEv Ev.restartCall { initState with isRecognitionActive := true }).engineStarts = 0 := by
  refine ⟨rfl, ?_, ?_⟩
  · exact (C8_restart_suppression _ Ev.restartCall rfl).1
  · exact (C8_restart_suppression _ Ev.restartCall rfl).2

/-- C5 counterexample: a pass that finishes with the frame queue empty, the
accumulation buffer empty and `isStreamComplete` true does transition the
session to Stopped (`isPlaying` becomes false) but performs zero
`onComplete` invocations — the claim that the completion callback "is
invoked by that pass" is false at this input: the source of
`scheduleNextBuffer` (lines 496–505) only sets `isPlaying = false` and never
calls `this.onComplete()`. -/
theorem C5_counterexample :
    (scheduleNextBuffer 0 c5State).state.audioQueue = [] ∧
    (scheduleNextBuffer 0 c5State).state.processingBuffer = [] ∧
    (scheduleNextBuffer 0 c5State).state.isStreamComplete = true ∧
    (scheduleNextBuffer 0 c5State).state.isPlaying = false ∧
    ¬ 1 ≤ (scheduleNextBuffer 0 c5State).completions := by
  simp [scheduleNextBuffer, scheduleLoopAux, c5State, initState]

/-- C5 amended: whenever a `scheduleNextBuffer` pass finishes with the frame
queue empty, the accumulation buffer empty, and `isStreamComplete` true, the
session transitions to Stopped (`isPlaying` becomes false) — but the pass
itself invokes no completion callback (completion only fires from
`complete()` or from the final source's `onended` notification). -/
theorem C5_amended (now : ℚ) (s : StreamerState)
    (hq : (scheduleNextBuffer now s).state.audioQueue = [])
    (hb : (scheduleNextBuffer now s).state.processingBuffer = [])
    (hc : s.isStreamComplete = true) :
    (scheduleNextBuffer now s).state.isPlaying = false ∧
    (scheduleNextBuffer now s).completions = 0 := by
  refine ⟨?_, scheduleNextBuffer_completions _ _⟩
  unfold scheduleNextBuffer at hq hb ⊢
  dsimp only at hq hb ⊢
  by_cases hcond : ((scheduleLoopAux now s.sampleRate s.audioQueue s.scheduledTime
      s.endOfQueueAudioSource s.nextSourceId).queue.isEmpty && s.processingBuffer.isEmpty) = true
  · rw [if_pos hcond]
    simp [hc]
  · rw [if_neg hcond] at hq hb ⊢
    dsimp only at hq hb
    exact absurd (by simp [List.isEmpty_iff, hq, hb]) hcond

/-- C5 witness for the amended statement: an idle completed session with
nothing queued; the pass leaves `isPlaying = false` and fires nothing. -/
theorem C5_amended_witness :
    (scheduleNextBuffer 2 { initState with isStreamComplete := true }).state.audioQueue = [] ∧
    (scheduleNextBuffer 2 { initState with isStreamComplete := true }).state.processingBuffer
        = [] ∧
    ({ initState with isStreamComplete := true } : StreamerState).isStreamComplete = true ∧
    (scheduleNextBuffer 2 { initState with isStreamComplete := true }).state.isPlaying = false ∧
    (scheduleNextBuffer 2 { initState with isStreamComplete := true }).completions = 0 := by
  have h1 : (scheduleNextBuffer 2
      { initState with isStreamComplete := true }).state.audioQueue = [] := by
    simp [scheduleNextBuffer, scheduleLoopAux, initState]
  have h2 : (scheduleNextBuffer 2
      { initState with isStreamComplete := true }).state.processingBuffer = [] := by
    simp [scheduleNextBuffer, scheduleLoopAux, initState]
  obtain ⟨h4, h5⟩ := C5_amended 2 { initState with isStreamComplete := true } h1 h2 rfl
  exact ⟨h1, h2, rfl, h4, h5⟩

/-- C4: on every pass, the started sources are exactly the head frames of the
queue (dequeued in FIFO order, leaving the suffix); the start chain obeys the
look-ahead guard, `startTime = max(scheduledTime, currentTime)` and
`scheduledTime := startTime + frame.length / sampleRate` (advancing by
exactly the frame's duration); the loop only stops with a non-empty queue if
the guard failed; afterwards the pass re-arms iff the queue or accumulation
buffer is non-empty, with the never-negative delay
`max 0 ((scheduledTime − now)·1000 − 50)` ms. -/
theorem C4_schedule_pass (now : ℚ) (s : StreamerState) :
    (scheduleNextBuffer now s).started.map StartEvent.frame
        = s.audioQueue.take (scheduleNextBuffer now s).started.length ∧
    (scheduleNextBuffer now s).state.audioQueue
        = s.audioQueue.drop (scheduleNextBuffer now s).started.length ∧
    startChainOK now s.sampleRate s.scheduledTime (scheduleNextBuffer now s).started
        (scheduleNextBuffer now s).state.scheduledTime ∧
    ((scheduleNextBuffer now s).state.audioQueue = [] ∨
      ¬ (scheduleNextBuffer now s).state.scheduledTime < now + scheduleAheadTime) ∧
    ((scheduleNextBuffer now s).state.audioQueue.isEmpty = false ∨
        (scheduleNextBuffer now s).state.processingBuffer.isEmpty = false →
      (scheduleNextBuffer now s).rearmDelayMs
        = some (max 0 (((scheduleNextBuffer now s).state.scheduledTime - now) * 1000 - 50))) ∧
    ((scheduleNextBuffer now s).state.audioQueue.isEmpty = true ∧
        (scheduleNextBuffer now s).state.processingBuffer.isEmpty = true →
      (scheduleNextBuffer now s).rearmDelayMs = none) ∧
    (∀ d, (scheduleNextBuffer now s).rearmDelayMs = some d → 0 ≤ d) := by
  obtain ⟨h1, h2, h3, h4⟩ := scheduleLoopAux_spec now s.sampleRate s.audioQueue s.scheduledTime
    s.endOfQueueAudioSource s.nextSourceId
  unfold scheduleNextBuffer
  dsimp only
  split
  · rename_i hcond
    rw [Bool.and_eq_true, List.isEmpty_iff, List.isEmpty_iff] at hcond
    split <;>
      exact ⟨h1, h2, h3, h4, by intro hab; rcases hab with hab | hab <;> simp [hcond.1, hcond.2] at hab,
        fun _ => rfl, by intro d hd; cases hd⟩
  · rename_i hcond
    refine ⟨h1, h2, h3, h4, fun _ => rfl, ?_, ?_⟩
    · intro hab
      obtain ⟨ha, hb2⟩ := hab
      dsimp only at ha hb2
      exact absurd (by rw [ha, hb2]; rfl) hcond
    · intro d hd
      dsimp only at hd
      rw [← Option.some_inj.mp hd]
      exact le_max_left 0 _

/-- C4 witness: idle session with one pending partial sample; the pass
re-arms with the formula's delay. -/
theorem C4_witness :
    ((scheduleNextBuffer 0 { initState with processingBuffer := [1] }).state.audioQueue.isEmpty
          = false ∨
      (scheduleNextBuffer 0 { initState with processingBuffer := [1] }).state.processingBuffer.isEmpty
          = false) ∧
    (scheduleNextBuffer 0 { initState with processingBuffer := [1] }).rearmDelayMs
      = some (max 0
          (((scheduleNextBuffer 0 { initState with processingBuffer := [1] }).state.scheduledTime
            - 0) * 1000 - 50)) := by
  have hab : (scheduleNextBuffer 0
        { initState with processingBuffer := [1] }).state.processingBuffer.isEmpty = false := by
    simp [scheduleNextBuffer, scheduleLoopAux, initState]
  exact ⟨Or.inr hab, (C4_schedule_pass 0 _).2.2.2.2.1 (Or.inr hab)⟩

/-- C2: ingesting a `Uint8Array` chunk of `N` bytes (`chunk.length = N`,
`N` even) of PCM on a session with an empty accumulation buffer does not
throw, appends exactly `⌊(N/2) / bufferSize⌋` full frames to the frame queue
(counting the frames a first-ingest scheduling pass may have already
dequeued), leaves exactly `(N/2) mod bufferSize` samples in the accumulation
buffer, and every frame now in the queue that was not there before has
exactly `bufferSize` samples. -/
theorem C2_chunking (len : Nat) (bytes : List Nat) (now : ℚ) (s : StreamerState)
    (heven : len % 2 = 0) (hempty : s.processingBuffer = []) (hB : 0 < s.bufferSize) :
    (addPCM16 len bytes now s).threw = false ∧
    (addPCM16 len bytes now s).started.length
        + (addPCM16 len bytes now s).state.audioQueue.length
        = s.audioQueue.length + (len / 2) / s.bufferSize ∧
    (addPCM16 len bytes now s).state.processingBuffer.length = (len / 2) % s.bufferSize ∧
    (∀ f ∈ (addPCM16 len bytes now s).state.audioQueue,
        f ∈ s.audioQueue ∨ f.length = s.bufferSize) := by
  obtain ⟨h1, h2, h3, h4, _, _, _, _, _, _⟩ := addPCM16_spec len bytes now s hB
  rw [hempty] at h2 h3
  simp only [List.length_nil, Nat.zero_add] at h2 h3
  exact ⟨h1, h2, h3, h4⟩

/-- C2 witness: 4 bytes `[1,2,3,4]` into a fresh session: no throw, 0 full
frames, 2 buffered samples. -/
theorem C2_witness :
    (4 % 2 = 0 ∧ initState.processingBuffer = [] ∧ 0 < initState.bufferSize) ∧
    (addPCM16 4 [1, 2, 3, 4] 0 initState).threw = false ∧
    (addPCM16 4 [1, 2, 3, 4] 0 initState).started.length
        + (addPCM16 4 [1, 2, 3, 4] 0 initState).state.audioQueue.length
        = initState.audioQueue.length + (4 / 2) / initState.bufferSize ∧
    (addPCM16 4 [1, 2, 3, 4] 0 initState).state.processingBuffer.length
        = (4 / 2) % initState.bufferSize ∧
    (∀ f ∈ (addPCM16 4 [1, 2, 3, 4] 0 initState).state.audioQueue,
        f ∈ initState.audioQueue ∨ f.length = initState.bufferSize) := by
  refine ⟨⟨by decide, rfl, by decide⟩, ?_⟩
  exact C2_chunking 4 [1, 2, 3, 4] 0 initState (by decide) rfl (by decide)

theorem toSigned16_bounds (v : Nat) (h : v < 65536) :
    -32768 ≤ toSigned16 v ∧ toSigned16 v < 32768 := by
  unfold toSigned16
  split <;> omega

theorem byteAt_lt (bytes : List Nat) (hb : ∀ b ∈ bytes, b < 256) :
    ∀ i, byteAt bytes i < 256 := by
  induction bytes with
  | nil => intro i; simp [byteAt]
  | cons b bs ih =>
    intro i
    cases i with
    | zero => exact hb b (by simp)
    | succ j => exact ih (fun x hx => hb x (by simp [hx])) j

theorem pcmSample_bounds (bytes : List Nat) (hb : ∀ b ∈ bytes, b < 256) (i : Nat) :
    -1 ≤ pcmSample bytes i ∧ pcmSample bytes i < 1 := by
  unfold pcmSample getInt16LE
  by_cases hin : 2 * i + 1 < bytes.length
  · rw [if_pos hin]
    obtain ⟨hl, hr⟩ := toSigned16_bounds (byteAt bytes (2 * i) + 256 * byteAt bytes (2 * i + 1))
      (by have h1 := byteAt_lt bytes hb (2 * i); have h2 := byteAt_lt bytes hb (2 * i + 1); omega)
    constructor
    · rw [le_div_iff₀ (by norm_num : (0 : ℚ) < 32768)]
      calc (-1 : ℚ) * 32768 = ((-32768 : Int) : ℚ) := by norm_num
        _ ≤ _ := by exact_mod_cast hl
    · rw [div_lt_one (by norm_num : (0 : ℚ) < 32768)]
      exact_mod_cast hr
  · rw [if_neg hin]
    norm_num

/-- C7: for every input — including odd byte lengths — `addPCM16` does not
throw: `ToIndex` truncates the fractional `chunk.length / 2` (so the
`Float32Array` construction succeeds), the loop's only throwing operation is
inside its `try`/`catch`, and an out-of-range typed-array store is a silent
no-op; the malformed trailing odd byte is thus dropped silently (exactly
`⌊len / 2⌋` samples are converted) and every converted sample is a signed
16-bit integer divided by 32768, a rational in `[-1.0, 1.0)`. -/
theorem C7_no_throw (len : Nat) (bytes : List Nat) (now : ℚ) (s : StreamerState)
    (hbytes : ∀ b ∈ bytes, b < 256) :
    (addPCM16 len bytes now s).threw = false ∧
    (pcmConvert len bytes).length = len / 2 ∧
    ∀ q ∈ pcmConvert len bytes, -1 ≤ q ∧ q < 1 := by
  refine ⟨?_, pcmConvert_length len bytes, ?_⟩
  · by_cases hact : s.isRecognitionActive <;> by_cases hplay : s.isPlaying <;>
      simp [addPCM16, hact, hplay]
  · intro q hq
    obtain ⟨i, _, rfl⟩ := List.mem_map.mp hq
    exact pcmSample_bounds bytes hbytes i

/-- C7 witness: an odd 3-byte chunk `[5, 3, 9]` does not throw, converts
exactly one sample (the trailing byte `9` is dropped), and that sample lies
in `[-1, 1)`. -/
theorem C7_witness :
    (∀ b ∈ [5, 3, 9], b < 256) ∧
    (addPCM16 3 [5, 3, 9] 0 initState).threw = false ∧
    (pcmConvert 3 [5, 3, 9]).length = 3 / 2 ∧
    ∀ q ∈ pcmConvert 3 [5, 3, 9], -1 ≤ q ∧ q < 1 := by
  refine ⟨by decide, ?_⟩
  exact C7_no_throw 3 [5, 3, 9] 0 initState (by decide)

/-- C6: over any event trace from a fresh session that contains no `stop()`
— odd-length ingests included (their trailing byte is dropped, the
`⌊len / 2⌋` converted samples counted) — the concatenation of all frames
handed to sources in dequeue order, then the frames still queued, then the
remaining accumulation buffer, equals the concatenation of all ingested
samples in arrival order: no sample and no frame is reordered, dropped or
duplicated. -/
theorem C6_ordering (t : List Ev) (hok : traceOK t = true) :
    ((runTrace t initState).started.map StartEvent.frame).flatten
        ++ (runTrace t initState).state.audioQueue.flatten
        ++ (runTrace t initState).state.processingBuffer
      = traceSamples t := by
  have h := runTrace_conserve t initState hok
  simpa [initState] using h

/-- C6 witness: one odd 3-byte ingest (trailing byte dropped, one sample
converted) followed by a pass reconstructs exactly the ingested samples. -/
theorem C6_witness :
    traceOK [Ev.ingest 3 [7, 7, 9] 0, Ev.passEv 1] = true ∧
    ((runTrace [Ev.ingest 3 [7, 7, 9] 0, Ev.passEv 1] initState).started.map
          StartEvent.frame).flatten
        ++ (runTrace [Ev.ingest 3 [7, 7, 9] 0, Ev.passEv 1] initState).state.audioQueue.flatten
        ++ (runTrace [Ev.ingest 3 [7, 7, 9] 0, Ev.passEv 1] initState).state.processingBuffer
      = traceSamples [Ev.ingest 3 [7, 7, 9] 0, Ev.passEv 1] := by
  constructor
  · decide
  · exact C6_ordering [Ev.ingest 3 [7, 7, 9] 0, Ev.passEv 1] (by decide)

/-- C3: from a fresh session (`bufferSize = 7680`, empty queue and buffer),
ingesting a 15360-byte chunk — passed, as the source's JSDoc declares, as an
`Int16Array`, so `chunk.length = 7680` and the conversion loop produces
`7680 / 2 = 3840` samples — yields 0 full frames with 3840 samples buffered;
ingesting a second identical chunk yields exactly one full frame of 7680
samples (still in the queue: the session is already playing, so the second
call triggers no pass) and leaves the accumulation buffer empty. -/
theorem C3_two_chunk_scenario (bytes : List Nat) (now1 now2 : ℚ)
    (hlen : bytes.length = 15360) :
    (addPCM16 7680 bytes now1 initState).started = [] ∧
    (addPCM16 7680 bytes now1 initState).state.audioQueue = [] ∧
    (addPCM16 7680 bytes now1 initState).state.processingBuffer.length = 3840 ∧
    (addPCM16 7680 bytes now2 (addPCM16 7680 bytes now1 initState).state).started = [] ∧
    (addPCM16 7680 bytes now2
        (addPCM16 7680 bytes now1 initState).state).state.audioQueue.length = 1 ∧
    (∀ f ∈ (addPCM16 7680 bytes now2
        (addPCM16 7680 bytes now1 initState).state).state.audioQueue, f.length = 7680) ∧
    (addPCM16 7680 bytes now2
        (addPCM16 7680 bytes now1 initState).state).state.processingBuffer = [] := by
  obtain ⟨a1, a2, a3, a4, a5, a6, a7, a8, a9, a10⟩ :=
    addPCM16_spec 7680 bytes now1 initState (by decide)
  norm_num [show initState.processingBuffer.length = 0 from rfl,
    show initState.bufferSize = 7680 from rfl,
    show initState.audioQueue.length = 0 from rfl] at a2 a3
  obtain ⟨hstarted1, hqueue1⟩ := a2
  have hplay1 : (addPCM16 7680 bytes now1 initState).state.isPlaying = true := a8 rfl
  obtain ⟨b1, b2, b3, b4, b5, b6, b7, b8, b9, b10⟩ :=
    addPCM16_spec 7680 bytes now2 (addPCM16 7680 bytes now1 initState).state
      (by rw [a6]; decide)
  obtain ⟨hstarted2, -, -⟩ := b5 hplay1
  rw [hqueue1, hstarted2, a3, a6] at b2
  rw [a3, a6] at b3
  norm_num [show initState.bufferSize = 7680 from rfl] at b2 b3
  refine ⟨hstarted1, hqueue1, a3, hstarted2, b2, ?_, b3⟩
  intro f hf
  rcases b4 f hf with hmem | hfull
  · rw [hqueue1] at hmem
    exact absurd hmem (List.not_mem_nil f)
  · rw [a6] at hfull
    exact hfull

/-- C3 witness: the all-zero 15360-byte chunk. -/
theorem C3_witness :
    (List.replicate 15360 0).length = 15360 ∧
    (addPCM16 7680 (List.replicate 15360 0) 0 initState).started = [] ∧
    (addPCM16 7680 (List.replicate 15360 0) 0 initState).state.audioQueue = [] ∧
    (addPCM16 7680 (List.replicate 15360 0) 0 initState).state.processingBuffer.length
        = 3840 ∧
    (addPCM16 7680 (List.replicate 15360 0) 0
        (addPCM16 7680 (List.replicate 15360 0) 0 initState).state).started = [] ∧
    (addPCM16 7680 (List.replicate 15360 0) 0
        (addPCM16 7680 (List.replicate 15360 0) 0
          initState).state).state.audioQueue.length = 1 ∧
    (∀ f ∈ (addPCM16 7680 (List.replicate 15360 0) 0
        (addPCM16 7680 (List.replicate 15360 0) 0 initState).state).state.audioQueue,
        f.length = 7680) ∧
    (addPCM16 7680 (List.replicate 15360 0) 0
        (addPCM16 7680 (List.replicate 15360 0) 0
          initState).state).state.processingBuffer = [] :=
  ⟨List.length_replicate 15360 0,
    C3_two_chunk_scenario (List.replicate 15360 0) 0 0 (List.length_replicate 15360 0)⟩

/-- C1: refuted — the completion callback fires twice on `c1Trace`. The
ingest enqueues one full frame and its triggered pass schedules it (arming
its `onended`); `complete()` then sees an empty accumulation buffer and
invokes `onComplete` immediately, while the frame is still playing; when the
frame ends, the armed `onended` handler sees an empty queue and invokes
`onComplete` a second time. The claim's "exactly once, only after the last
enqueued frame has finished playing" is false on the code. -/
theorem C1_double_fire : (runTrace c1Trace initState).completions = 2 := by
  obtain ⟨hq, hb, he⟩ := c1_ingest_state
  simp only [c1Trace, runTrace, stepEv]
  rw [completeStream_empty 1 _ hb]
  dsimp only
  rw [sourceEnded_fire 0 _ (by dsimp only; exact hq) (by dsimp only; exact he)]
